import Mathlib

/-!
Shallow embedding of the task lifecycle / time-ledger core of the 3t repository
(src/js/task-service.mjs, src/js/timelog-service.mjs, and the category-key
parsing exported from the category service).

Modelling conventions:
- JS status strings become the inductive `Status`; a possibly-absent status
  field is `Option Status` (JS `undefined`/`null` become `none`).
- ISO timestamp strings and `YYYY-MM-DD` date strings are totally ordered and
  only ever compared; they are modelled as `Nat`.
- JS numbers (hours values) are modelled as `Int`; the code only adds and
  compares them.
- IndexedDB object stores become lists of records plus an auto-increment
  counter; `put` with an id replaces the record with that id, `put`/`add`
  without an id assigns the next key (keys start at 1, as IndexedDB does).
- `new Date()` is passed in explicitly as a `now`/`today` parameter.
- Failure results (the services return `false` after a toast/console warning)
  become a `Bool` result paired with the resulting store state.
-/

namespace ThreeT

/-- Task status enumeration: the nine status strings used by task-service.mjs. -/
inductive Status
  | Ready
  | Estimated
  | InProgress
  | Blocked
  | Backburner
  | OnHold
  | Completed
  | Abandoned
  | Archived
deriving DecidableEq, Repr, Fintype

/-- Rendering of a status back to its JS string (used in history notes). -/
def statusStr : Status → String
  | .Ready => "Ready"
  | .Estimated => "Estimated"
  | .InProgress => "InProgress"
  | .Blocked => "Blocked"
  | .Backburner => "Backburner"
  | .OnHold => "OnHold"
  | .Completed => "Completed"
  | .Abandoned => "Abandoned"
  | .Archived => "Archived"

/-- JS template interpolation of a possibly-absent status: `undefined` prints
as the string "undefined". -/
def optStatusStr : Option Status → String
  | some s => statusStr s
  | none => "undefined"

/-- stateTransitions map of task-service.mjs: which statuses may follow which. -/
def stateTransitions : Status → List Status
  | .Ready => [.Estimated, .InProgress, .Abandoned, .Archived]
  | .Estimated => [.InProgress, .Abandoned, .Archived]
  | .InProgress => [.Blocked, .Backburner, .OnHold, .Completed, .Abandoned, .Archived]
  | .Blocked => [.InProgress, .Backburner, .OnHold, .Abandoned, .Archived]
  | .Backburner => [.InProgress, .Blocked, .OnHold, .Abandoned, .Archived]
  | .OnHold => [.InProgress, .Abandoned, .Archived]
  | .Completed => [.Abandoned, .Archived]
  | .Abandoned => [.Archived]
  | .Archived => []

/-- isValidStatusTransition of task-service.mjs. A missing (`null`/`undefined`)
status on either side is rejected; equal statuses are always valid; otherwise
the target must be listed in the transition map. -/
def isValidStatusTransition : Option Status → Option Status → Bool
  | some f, some t => f == t || (stateTransitions f).contains t
  | _, _ => false

/-- One entry of a task's embedded statusHistory array. The status is optional
because the legacy-normalization path copies a stored task's possibly-absent
status field verbatim. -/
structure StatusEvent where
  status : Option Status
  timestamp : Nat
  note : String
deriving DecidableEq, Repr

/-- The task record fields that the core reads or writes. Presentation-only
fields (urgency, importance, project/phase/category references, notes) do not
influence any of the modelled operations and are represented by `title`. -/
structure Task where
  id : Option Nat
  title : String
  status : Option Status
  estimate : Option Int
  remainingHours : Option Int
  statusHistory : Option (List StatusEvent)
  createdAt : Option Nat
  dueOn : Option Nat
deriving DecidableEq, Repr

/-- A time log record. `category` and `categoryKey` are both modelled because
the category analyzer reads `log.category || log.categoryKey`. -/
structure TimeLog where
  id : Option Nat
  taskId : Option Nat
  hours : Option Int
  dateLogged : Option Nat
  category : Option String
  categoryKey : Option String
  notes : String
deriving DecidableEq, Repr

/-- A remainingHoursHistory record. The initial-estimate entry is created with
`taskId: null` and the id is assigned by the store, hence both are optional. -/
structure RemainingHoursEntry where
  id : Option Nat
  taskId : Option Nat
  remainingHours : Int
  previousRemainingHours : Option Int
  timestamp : Nat
  note : String
deriving DecidableEq, Repr

/-- The three object stores the core touches, with their auto-increment
counters (IndexedDB keys start at 1). -/
structure DB where
  tasks : List Task
  timeLogs : List TimeLog
  remainingHoursHistory : List RemainingHoursEntry
  nextTaskId : Nat
  nextTimeLogId : Nat
  nextRhhId : Nat
deriving DecidableEq, Repr

/-- An empty database. -/
def emptyDB : DB := ⟨[], [], [], 1, 1, 1⟩

/-- db.get('tasks', i). -/
def getTask (db : DB) (i : Nat) : Option Task :=
  db.tasks.find? (fun t => t.id == some i)

/-- objectStore('tasks').put(t): replaces the record with t's key, or assigns
the next auto-increment key when t has no id. Returns the saved key. -/
def putTask (db : DB) (t : Task) : Nat × DB :=
  match t.id with
  | some i =>
      if db.tasks.any (fun x => x.id == some i) then
        (i, { db with tasks := db.tasks.map (fun x => if x.id == some i then t else x) })
      else
        (i, { db with tasks := db.tasks ++ [t] })
  | none =>
      (db.nextTaskId,
       { db with tasks := db.tasks ++ [{ t with id := some db.nextTaskId }],
                 nextTaskId := db.nextTaskId + 1 })

/-- objectStore('timeLogs').put(l). -/
def putTimeLog (db : DB) (l : TimeLog) : Nat × DB :=
  match l.id with
  | some i =>
      if db.timeLogs.any (fun x => x.id == some i) then
        (i, { db with timeLogs := db.timeLogs.map (fun x => if x.id == some i then l else x) })
      else
        (i, { db with timeLogs := db.timeLogs ++ [l] })
  | none =>
      (db.nextTimeLogId,
       { db with timeLogs := db.timeLogs ++ [{ l with id := some db.nextTimeLogId }],
                 nextTimeLogId := db.nextTimeLogId + 1 })

/-- objectStore('remainingHoursHistory').add(e): always inserts under a fresh
auto-increment key. -/
def addRemainingHoursEntry (db : DB) (e : RemainingHoursEntry) : DB :=
  { db with
    remainingHoursHistory :=
      db.remainingHoursHistory ++ [{ e with id := some db.nextRhhId }],
    nextRhhId := db.nextRhhId + 1 }

/-- Legacy normalization inside saveTask's edit path: a stored task without a
statusHistory gets a single synthesized entry from its stored status and
createdAt (or the current time). -/
def normalizedHistory (cur : Task) (now : Nat) : List StatusEvent :=
  match cur.statusHistory with
  | some h => h
  | none => [{ status := cur.status, timestamp := cur.createdAt.getD now,
               note := "Legacy task - initial status" }]

/-- New-task initialization in saveTask: seeds statusHistory (defaulting the
entry's status to Ready when the task has none — the task's own status field
is not modified), stamps createdAt, and defaults remainingHours to
`estimate || 0` only when the remainingHours field is absent. -/
def initializeNewTask (task : Task) (now : Nat) : Task :=
  if task.remainingHours = none then
    { task with
      statusHistory := some [{ status := some (task.status.getD .Ready),
                               timestamp := now, note := "Task created" }],
      createdAt := some now,
      remainingHours := some (task.estimate.getD 0) }
  else
    { task with
      statusHistory := some [{ status := some (task.status.getD .Ready),
                               timestamp := now, note := "Task created" }],
      createdAt := some now }

/-- The optional initial remaining-hours ledger entry for a new task: created
exactly when the (already initialized) remainingHours is positive. Its taskId
is filled in after the task write assigns a key. -/
def initialEntryFor (task : Task) (now : Nat) : Option RemainingHoursEntry :=
  if 0 < task.remainingHours.getD 0 then
    some { id := none, taskId := none, remainingHours := task.remainingHours.getD 0,
           previousRemainingHours := none, timestamp := now, note := "Initial estimate" }
  else none

/-- The write section of saveTask: one transaction putting the task and, for a
new task with an initial ledger entry, adding that entry with the saved key. -/
def writeTask (db : DB) (task : Task) (isEdit : Bool)
    (entry : Option RemainingHoursEntry) : Bool × DB :=
  match isEdit, entry with
  | false, some e =>
      (true, addRemainingHoursEntry (putTask db task).2
        { e with taskId := some (putTask db task).1 })
  | _, _ => (true, (putTask db task).2)

/-- The edit path of saveTask once the stored task was loaded: normalize a
legacy history, then either preserve the history (status unchanged), append a
transition event (valid change), or abort before any write (invalid change).
createdAt is always preserved from the stored record. -/
def editChecked (db : DB) (task cur : Task) (now : Nat) : Bool × DB :=
  if cur.status = task.status then
    writeTask db { task with statusHistory := some (normalizedHistory cur now),
                             createdAt := some (cur.createdAt.getD now) } true none
  else if isValidStatusTransition cur.status task.status then
    writeTask db { task with
      statusHistory := some (normalizedHistory cur now ++
        [{ status := task.status, timestamp := now,
           note := optStatusStr cur.status ++ " => " ++ optStatusStr task.status }]),
      createdAt := some (cur.createdAt.getD now) } true none
  else (false, db)

/-- saveTask of task-service.mjs. The status-transition check only runs when
this is an edit and the incoming task has a truthy status and id (JS guard
`isEdit && task.status && task.id`; an id of 0 is falsy); in every other case
the record is written as-is. -/
def saveTask (db : DB) (task : Task) (isEdit : Bool) (now : Nat) : Bool × DB :=
  match isEdit with
  | true =>
      match task.status, task.id with
      | some _, some i =>
          if i = 0 then writeTask db task true none
          else
            match getTask db i with
            | some cur => editChecked db task cur now
            | none => writeTask db task true none
      | _, _ => writeTask db task true none
  | false =>
      writeTask db (initializeNewTask task now) false
        (initialEntryFor (initializeNewTask task now) now)

/-- deleteTask of task-service.mjs: one transaction removing the task record,
every time log indexed by the taskId, and every remaining-hours entry indexed
by the taskId. -/
def deleteTask (db : DB) (taskId : Nat) : Bool × DB :=
  (true,
   { db with
     tasks := db.tasks.filter (fun t => t.id != some taskId),
     timeLogs := db.timeLogs.filter (fun l => l.taskId != some taskId),
     remainingHoursHistory :=
       db.remainingHoursHistory.filter (fun e => e.taskId != some taskId) })

/-- Default note text in updateRemainingHours when the caller's note is empty. -/
def defaultUpdateNote (oldValue newValue : Int) : String :=
  "Updated remaining hours from " ++ toString oldValue ++ "h to " ++
    toString newValue ++ "h"

/-- updateRemainingHours of task-service.mjs. A missing task fails; an
unchanged value (the stored field is read through `|| 0`) is a no-op returning
false; otherwise the task and a ledger entry are written in one transaction. -/
def updateRemainingHours (db : DB) (taskId : Nat) (newRemainingHours : Int)
    (note : String) (now : Nat) : Bool × DB :=
  match getTask db taskId with
  | none => (false, db)
  | some task =>
      if task.remainingHours.getD 0 = newRemainingHours then (false, db)
      else
        (true, addRemainingHoursEntry
          (putTask db { task with remainingHours := some newRemainingHours }).2
          { id := none, taskId := some taskId,
            remainingHours := newRemainingHours,
            previousRemainingHours := some (task.remainingHours.getD 0),
            timestamp := now,
            note := if note = "" then
                      defaultUpdateNote (task.remainingHours.getD 0) newRemainingHours
                    else note })

/-- getRemainingHoursHistory of task-service.mjs: all ledger entries indexed
by the taskId. -/
def getRemainingHoursHistory (db : DB) (taskId : Nat) : List RemainingHoursEntry :=
  db.remainingHoursHistory.filter (fun e => e.taskId == some taskId)

/-- canLogTimeForTask of timelog-service.mjs. -/
def canLogTimeForTask : Option Task → Bool
  | none => false
  | some t => t.status == some .Estimated || t.status == some .InProgress

/-- Defaulting of dateLogged to the current date inside saveTimeLog. -/
def withDefaultDate (timeLog : TimeLog) (today : Nat) : TimeLog :=
  if timeLog.dateLogged = none then { timeLog with dateLogged := some today }
  else timeLog

/-- saveTimeLog of timelog-service.mjs: the referenced task must exist and be
Estimated or InProgress, otherwise the call fails before any write (a missing
taskId makes the store lookup throw, which the catch turns into a failure).
dateLogged defaults to today when absent; then the log is put. -/
def saveTimeLog (db : DB) (timeLog : TimeLog) (today : Nat) : Bool × DB :=
  match timeLog.taskId with
  | none => (false, db)
  | some tid =>
      match getTask db tid with
      | none => (false, db)
      | some task =>
          if task.status == some .Estimated || task.status == some .InProgress then
            (true, (putTimeLog db (withDefaultDate timeLog today)).2)
          else (false, db)

/-- Date-range predicate of getTimeLogs: kept when either bound is absent,
otherwise dateLogged must lie between the bounds (a log without a date fails
the comparison). -/
def dateFilterKeep (startDate endDate : Option Nat) (log : TimeLog) : Bool :=
  match startDate, endDate with
  | some s, some e =>
      match log.dateLogged with
      | some d => decide (s ≤ d) && decide (d ≤ e)
      | none => false
  | _, _ => true

/-- getTimeLogs of timelog-service.mjs: a truthy taskId filters by the index,
a null taskId returns all logs; then the date predicate is applied. -/
def getTimeLogs (db : DB) (taskId : Option Nat) (startDate endDate : Option Nat) :
    List TimeLog :=
  (if taskId.getD 0 ≠ 0 then db.timeLogs.filter (fun l => l.taskId == taskId)
   else db.timeLogs).filter (dateFilterKeep startDate endDate)

/-- Result record of validateTimeLog. -/
structure TimeLogValidation where
  valid : Bool
  errors : List String
deriving DecidableEq, Repr

/-- validateTimeLog of timelog-service.mjs: collects an error per missing or
out-of-range required field (`!taskId`, `!hours || hours <= 0`, `!dateLogged`). -/
def validateTimeLog (timeLog : TimeLog) : TimeLogValidation :=
  let errors : List String := []
  let errors := if timeLog.taskId.getD 0 = 0 then
                  errors ++ ["Task ID is required"] else errors
  let errors := if (match timeLog.hours with
                    | none => true
                    | some h => decide (h ≤ 0)) then
                  errors ++ ["Hours must be greater than 0"] else errors
  let errors := if timeLog.dateLogged = none then
                  errors ++ ["Date logged is required"] else errors
  { valid := errors.isEmpty, errors := errors }

/-- Character-level model of JS `key.split('.')` (splitting on every dot). -/
def splitOnDotAux : List Char → List Char → List String
  | [], acc => [String.mk acc.reverse]
  | c :: cs, acc =>
      if c = '.' then String.mk acc.reverse :: splitOnDotAux cs []
      else splitOnDotAux cs (c :: acc)

/-- JS `key.split('.')`. -/
def splitOnDot (s : String) : List String := splitOnDotAux s.data []

/-- JS `parts.join('.')`. -/
def joinWithDot : List String → String
  | [] => ""
  | [s] => s
  | s :: rest => s ++ "." ++ joinWithDot rest

/-- Result of parseCategoryKey. -/
structure ParsedCategoryKey where
  listSlug : Option String
  itemSlug : Option String
deriving DecidableEq, Repr

/-- parseCategoryKey of the category service: a falsy key or one without a dot
parses to nulls; otherwise the part before the first dot is the listSlug and
the rest (rejoined, so the item may itself contain dots) is the itemSlug. -/
def parseCategoryKey (categoryKey : Option String) : ParsedCategoryKey :=
  match categoryKey with
  | none => ⟨none, none⟩
  | some key =>
      if key = "" || !key.data.contains '.' then ⟨none, none⟩
      else
        match splitOnDot key with
        | [] => ⟨none, none⟩
        | listSlug :: itemParts => ⟨some listSlug, some (joinWithDot itemParts)⟩

/-- JS truthiness of a possibly-absent string. -/
def strTruthy : Option String → Bool
  | some s => s ≠ ""
  | none => false

/-- The category value the analyzer reads: `log.category || log.categoryKey`,
kept only when truthy. -/
def categoryValueOf (log : TimeLog) : Option String :=
  match log.category with
  | some s =>
      if s = "" then
        match log.categoryKey with
        | some k => if k = "" then none else some k
        | none => none
      else some s
  | none =>
      match log.categoryKey with
      | some k => if k = "" then none else some k
      | none => none

/-- Display titles resolved by the external category directory for a key. -/
structure CategoryDisplayInfo where
  listTitle : String
  itemTitle : String
  fullDisplay : String
deriving DecidableEq, Repr

/-- Per-category bucket of analyzeCategoriesInTimeLogs. -/
structure CatStat where
  key : String
  listTitle : String
  categoryTitle : String
  fullDisplay : String
  hours : Int
  logCount : Nat
  listSlug : String
  itemSlug : String
deriving DecidableEq, Repr

/-- Per-item bucket nested inside a category-list rollup. -/
structure CatItemStat where
  slug : String
  title : String
  hours : Int
  logCount : Nat
deriving DecidableEq, Repr

/-- Per-category-list rollup bucket. -/
structure CatListStat where
  slug : String
  title : String
  hours : Int
  logCount : Nat
  categories : List (String × CatItemStat)
deriving DecidableEq, Repr

/-- JS object lookup on a keyed map modelled as an association list. -/
def lookupAssoc {α : Type} (m : List (String × α)) (k : String) : Option α :=
  (m.find? (fun p => p.1 == k)).map (fun p => p.2)

/-- JS object update `if (!m[k]) m[k] = d; f(m[k])`: initialize the key when
absent (insertion order, so appended at the end), then modify in place. -/
def updateAssoc {α : Type} :
    List (String × α) → String → α → (α → α) → List (String × α)
  | [], k, d, f => [(k, f d)]
  | p :: rest, k, d, f =>
      if p.1 == k then (p.1, f p.2) :: rest
      else p :: updateAssoc rest k d f

/-- Running accumulator of analyzeCategoriesInTimeLogs. -/
structure CatAcc where
  categoryStats : List (String × CatStat)
  categoryListStats : List (String × CatListStat)
  totalCategorizedHours : Int
  uncategorizedHours : Int
deriving DecidableEq, Repr

/-- One loop iteration of analyzeCategoriesInTimeLogs. A truthy category value
adds the hours to the categorized total before the key is parsed; only a
parse producing truthy slugs updates the per-category and per-list buckets.
A log with no truthy category value adds its hours to the uncategorized
total. The external directory lookups are passed in as functions. -/
def analyzeStep (info : String → CategoryDisplayInfo)
    (listTitleOf : String → Option String) (acc : CatAcc) (log : TimeLog) : CatAcc :=
  let h := log.hours.getD 0
  match categoryValueOf log with
  | some cv =>
      let acc := { acc with totalCategorizedHours := acc.totalCategorizedHours + h }
      let p := parseCategoryKey (some cv)
      if strTruthy p.listSlug && strTruthy p.itemSlug then
        let listSlug := p.listSlug.getD ""
        let itemSlug := p.itemSlug.getD ""
        let i := info cv
        let stats := updateAssoc acc.categoryStats cv
          { key := cv, listTitle := i.listTitle, categoryTitle := i.itemTitle,
            fullDisplay := i.fullDisplay, hours := 0, logCount := 0,
            listSlug := listSlug, itemSlug := itemSlug }
          (fun c => { c with hours := c.hours + h, logCount := c.logCount + 1 })
        let listStats := updateAssoc acc.categoryListStats listSlug
          { slug := listSlug, title := (listTitleOf listSlug).getD listSlug,
            hours := 0, logCount := 0, categories := [] }
          (fun L => { L with
            hours := L.hours + h,
            logCount := L.logCount + 1,
            categories := updateAssoc L.categories itemSlug
              { slug := itemSlug, title := (info cv).itemTitle,
                hours := 0, logCount := 0 }
              (fun c => { c with hours := c.hours + h, logCount := c.logCount + 1 }) })
        { acc with categoryStats := stats, categoryListStats := listStats }
      else acc
  | none => { acc with uncategorizedHours := acc.uncategorizedHours + h }

/-- Result record of analyzeCategoriesInTimeLogs. -/
structure CategoryAnalysis where
  categoryStats : List (String × CatStat)
  categoryListStats : List (String × CatListStat)
  totalCategorizedHours : Int
  uncategorizedHours : Int
  totalHours : Int
deriving DecidableEq, Repr

/-- analyzeCategoriesInTimeLogs of timelog-service.mjs, parametrized by the
external category-directory lookups. -/
def analyzeCategoriesInTimeLogs (info : String → CategoryDisplayInfo)
    (listTitleOf : String → Option String) (timeLogs : List TimeLog) :
    CategoryAnalysis :=
  let a := timeLogs.foldl (analyzeStep info listTitleOf) ⟨[], [], 0, 0⟩
  { categoryStats := a.categoryStats, categoryListStats := a.categoryListStats,
    totalCategorizedHours := a.totalCategorizedHours,
    uncategorizedHours := a.uncategorizedHours,
    totalHours := a.totalCategorizedHours + a.uncategorizedHours }

/-- Sum of the hours of a list of logs (absent hours read as 0; the theorems
about the analyzer restrict themselves to logs whose hours are present). -/
def sumLogHours (logs : List TimeLog) : Int :=
  (logs.map (fun l => l.hours.getD 0)).sum

/-- Whether a key parses into truthy list and item slugs. -/
def parseableKey (k : String) : Bool :=
  strTruthy (parseCategoryKey (some k)).listSlug &&
    strTruthy (parseCategoryKey (some k)).itemSlug

/-- The number of logs carrying a given category key. -/
def keyCount (k : String) (logs : List TimeLog) : Nat :=
  (logs.filter (fun l => categoryValueOf l == some k)).length

/-- The summed hours of the logs carrying a given category key. -/
def keySum (k : String) (logs : List TimeLog) : Int :=
  sumLogHours (logs.filter (fun l => categoryValueOf l == some k))

/-- The bucket a fresh key is initialized to, before any hours are added. -/
def initCatStat (info : String → CategoryDisplayInfo) (k : String) : CatStat :=
  { key := k, listTitle := (info k).listTitle, categoryTitle := (info k).itemTitle,
    fullDisplay := (info k).fullDisplay, hours := 0, logCount := 0,
    listSlug := (parseCategoryKey (some k)).listSlug.getD "",
    itemSlug := (parseCategoryKey (some k)).itemSlug.getD "" }

/-- Adding s hours and n logs to a per-category bucket. -/
def bumpCatStat (c : CatStat) (s : Int) (n : Nat) : CatStat :=
  { c with hours := c.hours + s, logCount := c.logCount + n }

/-- Concrete category-directory lookup used by the analyzer examples. -/
def infoC9 : String → CategoryDisplayInfo := fun k =>
  { listTitle := "L", itemTitle := "I", fullDisplay := k }

/-- Concrete category-list lookup used by the analyzer examples: nothing
resolves. -/
def ltC9 : String → Option String := fun _ => none

/-- Concrete log with a present but unparseable category key. -/
def logC9 : TimeLog :=
  { id := some 1, taskId := some 1, hours := some 2, dateLogged := some 3,
    category := none, categoryKey := some "nodot", notes := "" }

/-- Concrete 2h log with key "work.coding". -/
def logW9a : TimeLog :=
  { id := some 1, taskId := some 1, hours := some 2, dateLogged := some 3,
    category := none, categoryKey := some "work.coding", notes := "" }

/-- Concrete 4h log with key "work.coding". -/
def logW9b : TimeLog :=
  { id := some 2, taskId := some 1, hours := some 4, dateLogged := some 3,
    category := none, categoryKey := some "work.coding", notes := "" }

/-- Concrete uncategorized 1h log. -/
def logW9c : TimeLog :=
  { id := some 3, taskId := some 1, hours := some 1, dateLogged := some 3,
    category := none, categoryKey := none, notes := "" }

/-- The transition table exactly as the specification's section 4.1 lists it
(from, to) pair by pair. This definition is written from the spec's words, to
be compared with `stateTransitions`, which is written from the source. -/
def specTransitionPairs : List (Status × Status) :=
  [(.Ready, .Estimated), (.Ready, .InProgress), (.Ready, .Abandoned), (.Ready, .Archived),
   (.Estimated, .InProgress), (.Estimated, .Abandoned), (.Estimated, .Archived),
   (.InProgress, .Blocked), (.InProgress, .Backburner), (.InProgress, .OnHold),
   (.InProgress, .Completed), (.InProgress, .Abandoned), (.InProgress, .Archived),
   (.Blocked, .InProgress), (.Blocked, .Backburner), (.Blocked, .OnHold),
   (.Blocked, .Abandoned), (.Blocked, .Archived),
   (.Backburner, .InProgress), (.Backburner, .Blocked), (.Backburner, .OnHold),
   (.Backburner, .Abandoned), (.Backburner, .Archived),
   (.OnHold, .InProgress), (.OnHold, .Abandoned), (.OnHold, .Archived),
   (.Completed, .Abandoned), (.Completed, .Archived),
   (.Abandoned, .Archived)]

/-- Non-decreasing timestamps along a status history. -/
def timestampsMonotone : List StatusEvent → Bool
  | [] => true
  | [_] => true
  | a :: b :: rest => decide (a.timestamp ≤ b.timestamp) && timestampsMonotone (b :: rest)

/-- Concrete stored task used by the C2 witness. -/
def curW2 : Task :=
  { id := some 1, title := "t", status := some .Ready, estimate := none,
    remainingHours := none,
    statusHistory := some [{ status := some .Ready, timestamp := 3, note := "Task created" }],
    createdAt := some 3, dueOn := none }

/-- Concrete database used by the C2 witness. -/
def dbW2 : DB := { tasks := [curW2], timeLogs := [], remainingHoursHistory := [],
                   nextTaskId := 2, nextTimeLogId := 1, nextRhhId := 1 }

/-- Concrete edited task used by the C2 witness: Ready to InProgress is valid. -/
def taskW2 : Task :=
  { id := some 1, title := "t", status := some .InProgress, estimate := none,
    remainingHours := none, statusHistory := none, createdAt := none, dueOn := none }

/-- Concrete InProgress (loggable) task with id 1 used by several witnesses. -/
def taskA3 : Task :=
  { id := some 1, title := "a", status := some .InProgress, estimate := some 5,
    remainingHours := some 5,
    statusHistory := some [{ status := some .Ready, timestamp := 1, note := "Task created" }],
    createdAt := some 1, dueOn := none }

/-- Concrete Ready (not loggable) task with id 2 used by several witnesses. -/
def taskB3 : Task :=
  { id := some 2, title := "b", status := some .Ready, estimate := none,
    remainingHours := some 0,
    statusHistory := some [{ status := some .Ready, timestamp := 1, note := "Task created" }],
    createdAt := some 1, dueOn := none }

/-- Concrete database for the C3 witness: task 1 is InProgress (loggable),
task 2 is Ready (not loggable). -/
def dbW3 : DB :=
  { tasks := [taskA3, taskB3],
    timeLogs := [], remainingHoursHistory := [],
    nextTaskId := 3, nextTimeLogId := 1, nextRhhId := 1 }

/-- Concrete valid time log for the C3 witness (no dateLogged supplied). -/
def logW3 : TimeLog :=
  { id := none, taskId := some 1, hours := some 2, dateLogged := none,
    category := none, categoryKey := none, notes := "" }

/-- Concrete rejected time log for the C3 witness: its task is Ready. -/
def badLogW3 : TimeLog :=
  { id := none, taskId := some 2, hours := some 2, dateLogged := some 6,
    category := none, categoryKey := none, notes := "" }

/-- The remaining hours a task carries right after creation: the caller's
value when one was supplied, otherwise the estimate defaulted to 0. -/
def createdRemaining (task : Task) : Int :=
  match task.remainingHours with
  | some v => v
  | none => task.estimate.getD 0

/-- C5 counterexample: creating a task with no status, estimate 10 and an
explicit remainingHours of 3 succeeds, but the stored record's status is
still absent (not defaulted to Ready) and its remainingHours is 3, not the
estimate 10 the claim requires. -/
def taskC5 : Task :=
  { id := none, title := "c", status := none, estimate := some 10,
    remainingHours := some 3, statusHistory := none, createdAt := none, dueOn := none }

/-- Concrete new task for the C5 witness: estimate 10, no remainingHours. -/
def taskW5 : Task :=
  { id := none, title := "w5", status := some .Ready, estimate := some 10,
    remainingHours := none, statusHistory := none, createdAt := none, dueOn := none }

/-- Concrete database for the C7 witness: two logs and one ledger entry for
task 1, one log for task 2. -/
def dbW7 : DB :=
  { tasks := [taskA3, taskB3],
    timeLogs :=
      [{ id := some 1, taskId := some 1, hours := some 2, dateLogged := some 5,
         category := none, categoryKey := none, notes := "" },
       { id := some 2, taskId := some 1, hours := some 3, dateLogged := some 6,
         category := none, categoryKey := none, notes := "" },
       { id := some 3, taskId := some 2, hours := some 1, dateLogged := some 5,
         category := none, categoryKey := none, notes := "" }],
    remainingHoursHistory :=
      [{ id := some 1, taskId := some 1, remainingHours := 5,
         previousRemainingHours := none, timestamp := 1, note := "Initial estimate" }],
    nextTaskId := 3, nextTimeLogId := 4, nextRhhId := 2 }

/-- Concrete invalid time log (hours 0) against the loggable task 1. -/
def badLog10 : TimeLog :=
  { id := none, taskId := some 1, hours := some 0, dateLogged := none,
    category := none, categoryKey := none, notes := "" }

/-- Concrete fully valid time log for the C10 witness. -/
def goodLog10 : TimeLog :=
  { id := none, taskId := some 1, hours := some 2, dateLogged := some 5,
    category := none, categoryKey := none, notes := "" }

/-- Concrete malformed edit for the C4 counterexample: no status, an empty
caller-supplied history. -/
def badTask4 : Task :=
  { id := some 1, title := "bad", status := none, estimate := none,
    remainingHours := none, statusHistory := some [], createdAt := none, dueOn := none }

/-- Concrete valid edit for the C4 witness: InProgress to Blocked on task 1. -/
def taskE4 : Task :=
  { id := some 1, title := "e", status := some .Blocked, estimate := none,
    remainingHours := none, statusHistory := none, createdAt := none, dueOn := none }

/-!
Theorems. General list helpers first, then one theorem per claim (with the
witnesses and counterexamples the claims call for).
-/

/-- Replacing the matching element of a list and then searching for it finds
the replacement, provided some element matched. -/
theorem find?_map_ite_self {α : Type} (p : α → Bool) (t : α) (l : List α)
    (hl : l.any p = true) (ht : p t = true) :
    (l.map (fun x => if p x then t else x)).find? p = some t := by
  induction l with
  | nil => simp at hl
  | cons x xs ih =>
      cases hx : p x with
      | true => simp [hx, ht]
      | false =>
          have : xs.any p = true := by simpa [hx] using hl
          simp [hx, ih this]

/-- Replacing elements matched by p leaves a search by a disjoint predicate q
unchanged. -/
theorem find?_map_ite_ne {α : Type} (p q : α → Bool) (t : α) (l : List α)
    (hpq : ∀ x, p x = true → q x = false) (ht : q t = false) :
    (l.map (fun x => if p x then t else x)).find? q = l.find? q := by
  induction l with
  | nil => simp
  | cons x xs ih =>
      cases hx : p x with
      | true => simp [hx, ht, hpq x hx, ih]
      | false => cases hq : q x <;> simp [hx, hq, ih]

/-- Appending an element that fails the predicate does not change a search. -/
theorem find?_append_not {α : Type} (q : α → Bool) (t : α) (l : List α)
    (ht : q t = false) : (l ++ [t]).find? q = l.find? q := by
  cases h : l.find? q <;> simp [List.find?_append, h, ht]

/-- A history extended at time n stays timestamp-monotone when every existing
timestamp is at most n. -/
theorem timestampsMonotone_append (h : List StatusEvent) (ev : StatusEvent)
    (hm : timestampsMonotone h = true) (hle : ∀ e ∈ h, e.timestamp ≤ ev.timestamp) :
    timestampsMonotone (h ++ [ev]) = true := by
  induction h with
  | nil => simp [timestampsMonotone]
  | cons a rest ih =>
      cases rest with
      | nil =>
          simp only [List.cons_append, List.nil_append, timestampsMonotone,
            Bool.and_eq_true, decide_eq_true_eq]
          exact ⟨hle a (by simp), trivial⟩
      | cons b rest2 =>
          have hm2 : timestampsMonotone (b :: rest2) = true := by
            simp only [timestampsMonotone, Bool.and_eq_true] at hm
            exact hm.2
          have hab : a.timestamp ≤ b.timestamp := by
            simp only [timestampsMonotone, Bool.and_eq_true, decide_eq_true_eq] at hm
            exact hm.1
          have := ih hm2 (fun e he => hle e (by simp [he]))
          simp only [List.cons_append] at this ⊢
          simp only [timestampsMonotone, Bool.and_eq_true, decide_eq_true_eq]
          exact ⟨hab, by simpa [timestampsMonotone] using this⟩

/-- putTask never touches the time-log store. -/
theorem putTask_timeLogs (db : DB) (t : Task) : (putTask db t).2.timeLogs = db.timeLogs := by
  unfold putTask
  cases t.id
  · rfl
  · dsimp only
    split <;> rfl

/-- putTask never touches the remaining-hours ledger. -/
theorem putTask_rhh (db : DB) (t : Task) :
    (putTask db t).2.remainingHoursHistory = db.remainingHoursHistory := by
  unfold putTask
  cases t.id
  · rfl
  · dsimp only
    split <;> rfl

/-- putTimeLog never touches the task store. -/
theorem putTimeLog_tasks (db : DB) (l : TimeLog) : (putTimeLog db l).2.tasks = db.tasks := by
  unfold putTimeLog
  cases l.id
  · rfl
  · dsimp only
    split <;> rfl

/-- putTimeLog never touches the remaining-hours ledger. -/
theorem putTimeLog_rhh (db : DB) (l : TimeLog) :
    (putTimeLog db l).2.remainingHoursHistory = db.remainingHoursHistory := by
  unfold putTimeLog
  cases l.id
  · rfl
  · dsimp only
    split <;> rfl

/-- Putting a task whose id is already stored makes that id resolve to the new
record. -/
theorem getTask_put_self (db : DB) (t : Task) (i : Nat) (hid : t.id = some i)
    (hfound : (getTask db i).isSome) :
    getTask (putTask db t).2 i = some t := by
  have hex : ∃ x, x ∈ db.tasks ∧ (x.id == some i) = true := by
    unfold getTask at hfound
    exact List.find?_isSome.mp hfound
  have hany : db.tasks.any (fun x => x.id == some i) = true :=
    List.any_eq_true.mpr hex
  simp only [putTask, hid, hany, if_true, getTask]
  exact find?_map_ite_self _ t db.tasks hany (by simp [hid])

/-- Putting a task does not change what any other id resolves to. -/
theorem getTask_put_other (db : DB) (t : Task) (i j : Nat) (hid : t.id = some i)
    (hne : j ≠ i) :
    getTask (putTask db t).2 j = getTask db j := by
  have ht : (t.id == some j) = false := by
    simp [hid]
    exact fun h => hne h.symm
  simp only [putTask, hid, getTask]
  by_cases hany : db.tasks.any (fun x => x.id == some i) = true
  · simp only [hany, if_true]
    refine find?_map_ite_ne _ _ t db.tasks ?_ ht
    intro x hx
    have : x.id = some i := by simpa using hx
    simp [this]
    exact fun h => hne h.symm
  · simp only [Bool.not_eq_true] at hany
    simp only [hany, Bool.false_eq_true, if_false]
    exact find?_append_not _ t db.tasks ht

/-- Putting a task without an id stores it under the next auto-increment key. -/
theorem getTask_put_new (db : DB) (t : Task) (hid : t.id = none)
    (hfresh : ∀ x ∈ db.tasks, x.id ≠ some db.nextTaskId) :
    getTask (putTask db t).2 db.nextTaskId = some { t with id := some db.nextTaskId } := by
  have hnone : db.tasks.find? (fun x => x.id == some db.nextTaskId) = none := by
    rw [List.find?_eq_none]
    intro x hx
    simp [hfresh x hx]
  simp only [putTask, hid, getTask, List.find?_append, hnone, Option.none_or]
  simp

/-- C1: for every pair of the nine statuses, isValidStatusTransition returns
true exactly when the two statuses are equal or the pair appears in the
section 4.1 transition table of the specification; in particular the only
transition accepted out of Archived is the identity, so Archived has no
outgoing transitions. -/
theorem c1_transition_table :
    (∀ f t : Status, isValidStatusTransition (some f) (some t) = true ↔
      (f = t ∨ (f, t) ∈ specTransitionPairs)) ∧
    (∀ s : Status, isValidStatusTransition (some .Archived) (some s) = (s == .Archived)) := by
  constructor
  · decide
  · decide

/-- C2: editing a persisted task into a different status either aborts with a
failure and leaves the whole database untouched (invalid transition), or
succeeds and appends exactly one StatusEvent, stamped now and noted
"old => new", to the stored history, leaving the time logs and the
remaining-hours ledger unchanged. -/
theorem c2_edit_status_change
    (db : DB) (task cur : Task) (i : Nat) (st ost : Status)
    (hist : List StatusEvent) (now : Nat)
    (hid : task.id = some i) (hi0 : i ≠ 0) (hst : task.status = some st)
    (hcur : getTask db i = some cur) (host : cur.status = some ost)
    (hne : ost ≠ st) (hhist : cur.statusHistory = some hist) :
    (isValidStatusTransition cur.status task.status = false →
        saveTask db task true now = (false, db)) ∧
    (isValidStatusTransition cur.status task.status = true →
        (saveTask db task true now).1 = true ∧
        getTask (saveTask db task true now).2 i = some { task with
          statusHistory := some (hist ++
            [{ status := some st,
               timestamp := now,
               note := statusStr ost ++ " => " ++ statusStr st }]),
          createdAt := some (cur.createdAt.getD now) } ∧
        (saveTask db task true now).2.timeLogs = db.timeLogs ∧
        (saveTask db task true now).2.remainingHoursHistory = db.remainingHoursHistory) := by
  have hstat_ne : ¬ cur.status = task.status := by
    rw [host, hst]
    simp [hne]
  have hsave : saveTask db task true now = editChecked db task cur now := by
    unfold saveTask
    rw [hst, hid]
    dsimp only
    rw [if_neg hi0, hcur]
  constructor
  · intro hinvalid
    rw [hsave]
    unfold editChecked
    rw [if_neg hstat_ne, hinvalid]
    simp
  · intro hvalid
    have hnorm : normalizedHistory cur now = hist := by
      simp [normalizedHistory, hhist]
    have hedit : saveTask db task true now = writeTask db { task with
        statusHistory := some (hist ++
          [{ status := some st,
             timestamp := now,
             note := statusStr ost ++ " => " ++ statusStr st }]),
        createdAt := some (cur.createdAt.getD now) } true none := by
      rw [hsave]
      unfold editChecked
      rw [if_neg hstat_ne, if_pos hvalid, hnorm, hst, host]
      rfl
    rw [hedit]
    unfold writeTask
    refine ⟨rfl, ?_, ?_, ?_⟩
    · exact getTask_put_self db _ i (by simpa using hid) (by simp [hcur])
    · exact putTask_timeLogs db _
    · exact putTask_rhh db _

/-- Witness for C2 at a concrete database: the valid edit succeeds and appends
exactly the transition event. -/
theorem c2_edit_status_change_witness :
    (saveTask dbW2 taskW2 true 10).1 = true ∧
    getTask (saveTask dbW2 taskW2 true 10).2 1 = some { taskW2 with
      statusHistory := some
        [{ status := some .Ready, timestamp := 3, note := "Task created" },
         { status := some .InProgress, timestamp := 10, note := "Ready => InProgress" }],
      createdAt := some 3 } ∧
    (saveTask dbW2 taskW2 true 10).2.timeLogs = dbW2.timeLogs ∧
    (saveTask dbW2 taskW2 true 10).2.remainingHoursHistory = dbW2.remainingHoursHistory := by
  have h := c2_edit_status_change dbW2 taskW2 curW2 1 .InProgress .Ready
    [{ status := some .Ready, timestamp := 3, note := "Task created" }] 10
    rfl (by decide) rfl (by decide) rfl (by decide) rfl
  simpa using h.2 (by decide)

/-- C3: saveTimeLog fails and writes nothing when the referenced task does not
exist (including a missing taskId, whose store lookup throws) or its status is
not Estimated or InProgress; otherwise it succeeds, stores the log with
dateLogged defaulted to today when it was absent, and touches no other store. -/
theorem c3_savetimelog_gate (db : DB) (timeLog : TimeLog) (today : Nat) :
    (canLogTimeForTask (timeLog.taskId.bind (getTask db)) = false →
        saveTimeLog db timeLog today = (false, db)) ∧
    (canLogTimeForTask (timeLog.taskId.bind (getTask db)) = true →
        (saveTimeLog db timeLog today).1 = true ∧
        (saveTimeLog db timeLog today).2.tasks = db.tasks ∧
        (saveTimeLog db timeLog today).2.remainingHoursHistory = db.remainingHoursHistory ∧
        (saveTimeLog db timeLog today).2.timeLogs =
          (putTimeLog db (withDefaultDate timeLog today)).2.timeLogs) := by
  cases htid : timeLog.taskId with
  | none =>
      constructor
      · intro _
        simp [saveTimeLog, htid]
      · intro hcan
        simp [canLogTimeForTask] at hcan
  | some tid =>
      cases hget : getTask db tid with
      | none =>
          constructor
          · intro _
            simp [saveTimeLog, htid, hget]
          · intro hcan
            simp [canLogTimeForTask, hget] at hcan
      | some task =>
          constructor
          · intro hfalse
            have hf : (task.status == some .Estimated || task.status == some .InProgress) = false := by
              simpa [canLogTimeForTask, hget] using hfalse
            simp [saveTimeLog, htid, hget, hf]
          · intro htrue
            have ht : (task.status == some .Estimated || task.status == some .InProgress) = true := by
              simpa [canLogTimeForTask, hget] using htrue
            simp [saveTimeLog, htid, hget, ht, putTimeLog_tasks, putTimeLog_rhh]

/-- Witness for C3: the log against the InProgress task is stored with
dateLogged defaulted to today; the log against the Ready task is rejected with
no write. -/
theorem c3_savetimelog_gate_witness :
    (saveTimeLog dbW3 logW3 7).1 = true ∧
    (saveTimeLog dbW3 logW3 7).2.timeLogs = [{ logW3 with id := some 1, dateLogged := some 7 }] ∧
    saveTimeLog dbW3 badLogW3 7 = (false, dbW3) := by
  have h := (c3_savetimelog_gate dbW3 logW3 7).2 (by decide)
  refine ⟨h.1, ?_, ?_⟩
  · rw [h.2.2.2]
    decide
  · exact (c3_savetimelog_gate dbW3 badLogW3 7).1 (by decide)

/-- writeTask always reports success. -/
theorem writeTask_fst (db : DB) (t : Task) (isEdit : Bool)
    (entry : Option RemainingHoursEntry) : (writeTask db t isEdit entry).1 = true := by
  unfold writeTask
  cases isEdit <;> cases entry <;> rfl

/-- Adding a ledger entry leaves the task store alone. -/
theorem addRhh_tasks (db : DB) (e : RemainingHoursEntry) :
    (addRemainingHoursEntry db e).tasks = db.tasks := rfl

/-- Adding a ledger entry leaves the time-log store alone. -/
theorem addRhh_timeLogs (db : DB) (e : RemainingHoursEntry) :
    (addRemainingHoursEntry db e).timeLogs = db.timeLogs := rfl

/-- putTask does not advance the ledger's auto-increment counter. -/
theorem putTask_nextRhhId (db : DB) (t : Task) :
    (putTask db t).2.nextRhhId = db.nextRhhId := by
  unfold putTask
  cases t.id
  · rfl
  · dsimp only
    split <;> rfl

/-- putTask on a record without an id reports the next auto-increment key. -/
theorem putTask_fst_new (db : DB) (t : Task) (hid : t.id = none) :
    (putTask db t).1 = db.nextTaskId := by
  simp [putTask, hid]

/-- New-task initialization does not set or change the task's own status. -/
theorem initializeNewTask_status (task : Task) (now : Nat) :
    (initializeNewTask task now).status = task.status := by
  unfold initializeNewTask
  split <;> rfl

/-- New-task initialization does not touch the id. -/
theorem initializeNewTask_id (task : Task) (now : Nat) :
    (initializeNewTask task now).id = task.id := by
  unfold initializeNewTask
  split <;> rfl

/-- The seeded history of a new task: a single entry whose status is the
task's status defaulted to Ready. -/
theorem initializeNewTask_history (task : Task) (now : Nat) :
    (initializeNewTask task now).statusHistory =
      some [{ status := some (task.status.getD .Ready), timestamp := now,
              note := "Task created" }] := by
  unfold initializeNewTask
  split <;> rfl

/-- New-task initialization defaults remainingHours to the estimate only when
the field was absent. -/
theorem initializeNewTask_remaining (task : Task) (now : Nat) :
    (initializeNewTask task now).remainingHours = some (createdRemaining task) := by
  unfold initializeNewTask createdRemaining
  cases h : task.remainingHours <;> simp [h]

/-- C5 fails on the code: the new task's own status is not defaulted to Ready
and remainingHours is not set to the estimate when the caller supplied one. -/
theorem c5_counterexample :
    (saveTask emptyDB taskC5 false 4).1 = true ∧
    (getTask (saveTask emptyDB taskC5 false 4).2 1).map (fun t => t.status) ≠
      some (some .Ready) ∧
    (getTask (saveTask emptyDB taskC5 false 4).2 1).map (fun t => t.status) =
      some none ∧
    (getTask (saveTask emptyDB taskC5 false 4).2 1).map (fun t => t.remainingHours) ≠
      some (some 10) ∧
    (getTask (saveTask emptyDB taskC5 false 4).2 1).map (fun t => t.remainingHours) =
      some (some 3) := by
  decide

/-- C5 (amended): creating a task stores it unchanged except that the seeded
history's single entry defaults its status to Ready when absent (the task's
own status field is left as given), remainingHours is set to the estimate (or
0) only when the field was absent, and exactly one "Initial estimate" ledger
entry is written in the same transaction exactly when the resulting
remainingHours is positive. -/
theorem c5_create (db : DB) (task : Task) (now : Nat)
    (hid : task.id = none)
    (hfresh : ∀ x ∈ db.tasks, x.id ≠ some db.nextTaskId) :
    (saveTask db task false now).1 = true ∧
    getTask (saveTask db task false now).2 db.nextTaskId =
      some { initializeNewTask task now with id := some db.nextTaskId } ∧
    (initializeNewTask task now).status = task.status ∧
    (initializeNewTask task now).statusHistory =
      some [{ status := some (task.status.getD .Ready), timestamp := now,
              note := "Task created" }] ∧
    (initializeNewTask task now).remainingHours = some (createdRemaining task) ∧
    (0 < createdRemaining task →
      (saveTask db task false now).2.remainingHoursHistory =
        db.remainingHoursHistory ++
          [{ id := some db.nextRhhId, taskId := some db.nextTaskId,
             remainingHours := createdRemaining task, previousRemainingHours := none,
             timestamp := now, note := "Initial estimate" }]) ∧
    (¬ 0 < createdRemaining task →
      (saveTask db task false now).2.remainingHoursHistory = db.remainingHoursHistory) ∧
    (saveTask db task false now).2.timeLogs = db.timeLogs := by
  have hinit_id : (initializeNewTask task now).id = none := by
    rw [initializeNewTask_id]
    exact hid
  have hrem := initializeNewTask_remaining task now
  have hsave : saveTask db task false now =
      writeTask db (initializeNewTask task now) false
        (initialEntryFor (initializeNewTask task now) now) := rfl
  by_cases hpos : 0 < createdRemaining task
  · have hentry : initialEntryFor (initializeNewTask task now) now =
        some { id := none, taskId := none, remainingHours := createdRemaining task,
               previousRemainingHours := none, timestamp := now,
               note := "Initial estimate" } := by
      simp [initialEntryFor, hrem, hpos]
    have hw : saveTask db task false now =
        (true, addRemainingHoursEntry (putTask db (initializeNewTask task now)).2
          { id := none, taskId := some (putTask db (initializeNewTask task now)).1,
            remainingHours := createdRemaining task, previousRemainingHours := none,
            timestamp := now, note := "Initial estimate" }) := by
      rw [hsave, hentry]
      rfl
    refine ⟨by rw [hw], ?_, initializeNewTask_status task now,
      initializeNewTask_history task now, hrem, ?_, fun h => absurd hpos h, ?_⟩
    · rw [hw]
      show getTask (putTask db (initializeNewTask task now)).2 db.nextTaskId = _
      exact getTask_put_new db _ hinit_id hfresh
    · intro _
      rw [hw]
      show (putTask db (initializeNewTask task now)).2.remainingHoursHistory ++ _ = _
      rw [putTask_rhh, putTask_nextRhhId, putTask_fst_new db _ hinit_id]
    · rw [hw]
      show (putTask db (initializeNewTask task now)).2.timeLogs = _
      exact putTask_timeLogs db _
  · have hentry : initialEntryFor (initializeNewTask task now) now = none := by
      simp [initialEntryFor, hrem, hpos]
    have hw : saveTask db task false now =
        (true, (putTask db (initializeNewTask task now)).2) := by
      rw [hsave, hentry]
      rfl
    refine ⟨by rw [hw], ?_, initializeNewTask_status task now,
      initializeNewTask_history task now, hrem, fun h => absurd h hpos, ?_, ?_⟩
    · rw [hw]
      exact getTask_put_new db _ hinit_id hfresh
    · intro _
      rw [hw]
      exact putTask_rhh db _
    · rw [hw]
      exact putTask_timeLogs db _

/-- Witness for C5 (amended) at a concrete input: with estimate 10 and no
remainingHours supplied, the stored task has remainingHours 10 and exactly one
"Initial estimate" ledger entry of 10 hours is written. -/
theorem c5_create_witness :
    (saveTask emptyDB taskW5 false 6).1 = true ∧
    (getTask (saveTask emptyDB taskW5 false 6).2 1).map (fun t => t.remainingHours) =
      some (some 10) ∧
    (saveTask emptyDB taskW5 false 6).2.remainingHoursHistory =
      [{ id := some 1, taskId := some 1, remainingHours := 10,
         previousRemainingHours := none, timestamp := 6, note := "Initial estimate" }] := by
  have h := c5_create emptyDB taskW5 6 rfl (by intro x hx; simp [emptyDB] at hx)
  refine ⟨h.1, ?_, ?_⟩
  · rw [show (1 : Nat) = emptyDB.nextTaskId from rfl, h.2.1]
    decide
  · have := h.2.2.2.2.2.1 (by decide)
    simpa [emptyDB] using this

/-- Looking a task up through an id resolves its id field. -/
theorem getTask_id (db : DB) (i : Nat) (t : Task) (h : getTask db i = some t) :
    t.id = some i := by
  unfold getTask at h
  have := List.find?_some h
  simpa using this

/-- A ledger append leaves task lookups unchanged. -/
theorem getTask_addRhh (db : DB) (e : RemainingHoursEntry) (i : Nat) :
    getTask (addRemainingHoursEntry db e) i = getTask db i := rfl

/-- updateRemainingHours is a no-op whenever the stored value (read through
`|| 0`) already equals the requested one. -/
theorem updateRemainingHours_noop (db : DB) (tid : Nat) (v : Int) (note : String)
    (now : Nat) (task : Task) (htask : getTask db tid = some task)
    (heq : task.remainingHours.getD 0 = v) :
    updateRemainingHours db tid v note now = (false, db) := by
  unfold updateRemainingHours
  rw [htask]
  dsimp only
  rw [if_pos heq]

/-- C6: updateRemainingHours with the task's current value is a no-op (no
ledger entry, no task mutation, so repeating it stays a no-op); with a
different value it atomically writes the new value to the task and appends
exactly one ledger entry capturing previous value, new value, timestamp and
note (an empty note is replaced by a generated one), after which repeating
the same value is a no-op. The stored field is read through JS `|| 0`, so an
absent remainingHours counts as 0. -/
theorem c6_update_remaining (db : DB) (tid : Nat) (v : Int) (note : String)
    (now : Nat) (task : Task) (htask : getTask db tid = some task) :
    (v = task.remainingHours.getD 0 →
        updateRemainingHours db tid v note now = (false, db)) ∧
    (v ≠ task.remainingHours.getD 0 →
        (updateRemainingHours db tid v note now).1 = true ∧
        getTask (updateRemainingHours db tid v note now).2 tid =
          some { task with remainingHours := some v } ∧
        (∀ j, j ≠ tid → getTask (updateRemainingHours db tid v note now).2 j = getTask db j) ∧
        (updateRemainingHours db tid v note now).2.timeLogs = db.timeLogs ∧
        (updateRemainingHours db tid v note now).2.remainingHoursHistory =
          db.remainingHoursHistory ++
            [{ id := some db.nextRhhId, taskId := some tid, remainingHours := v,
               previousRemainingHours := some (task.remainingHours.getD 0),
               timestamp := now,
               note := if note = "" then
                         defaultUpdateNote (task.remainingHours.getD 0) v
                       else note }] ∧
        (∀ note2 now2,
          updateRemainingHours (updateRemainingHours db tid v note now).2 tid v note2 now2 =
            (false, (updateRemainingHours db tid v note now).2))) := by
  have hid : task.id = some tid := getTask_id db tid task htask
  constructor
  · intro heq
    exact updateRemainingHours_noop db tid v note now task htask heq.symm
  · intro hne
    have hupd : updateRemainingHours db tid v note now =
        (true, addRemainingHoursEntry
          (putTask db { task with remainingHours := some v }).2
          { id := none, taskId := some tid, remainingHours := v,
            previousRemainingHours := some (task.remainingHours.getD 0),
            timestamp := now,
            note := if note = "" then
                      defaultUpdateNote (task.remainingHours.getD 0) v
                    else note }) := by
      unfold updateRemainingHours
      rw [htask]
      dsimp only
      rw [if_neg (fun hh => hne hh.symm)]
    have hget2 : getTask (updateRemainingHours db tid v note now).2 tid =
        some { task with remainingHours := some v } := by
      rw [hupd, getTask_addRhh]
      exact getTask_put_self _ _ tid (by simpa using hid) (by simp [htask])
    refine ⟨by rw [hupd], hget2, ?_, ?_, ?_, ?_⟩
    · intro j hj
      rw [hupd, getTask_addRhh]
      exact getTask_put_other _ _ tid j (by simpa using hid) hj
    · rw [hupd]
      show (putTask db _).2.timeLogs = db.timeLogs
      exact putTask_timeLogs db _
    · rw [hupd]
      show (putTask db _).2.remainingHoursHistory ++ _ = _
      rw [putTask_rhh, putTask_nextRhhId]
    · intro note2 now2
      exact updateRemainingHours_noop _ tid v note2 now2 _ hget2 (by simp)

/-- Witness for C6 at a concrete database: updating task 1 (remainingHours 5)
to 5 is a no-op; updating to 3 writes the task and exactly one ledger entry;
repeating the update to 3 is then a no-op. -/
theorem c6_update_remaining_witness :
    updateRemainingHours dbW3 1 5 "n" 9 = (false, dbW3) ∧
    (updateRemainingHours dbW3 1 3 "burn" 9).1 = true ∧
    (updateRemainingHours dbW3 1 3 "burn" 9).2.remainingHoursHistory =
      [{ id := some 1, taskId := some 1, remainingHours := 3,
         previousRemainingHours := some 5, timestamp := 9, note := "burn" }] ∧
    updateRemainingHours (updateRemainingHours dbW3 1 3 "burn" 9).2 1 3 "again" 11 =
      (false, (updateRemainingHours dbW3 1 3 "burn" 9).2) := by
  have h0 := c6_update_remaining dbW3 1 5 "n" 9 taskA3 (by decide)
  have h := c6_update_remaining dbW3 1 3 "burn" 9 taskA3 (by decide)
  have h2 := h.2 (by decide)
  refine ⟨h0.1 (by decide), h2.1, ?_, h2.2.2.2.2.2 "again" 11⟩
  rw [h2.2.2.2.2.1]
  decide

/-- Pre-filtering by a predicate every search candidate satisfies anyway does
not change the search result. -/
theorem find?_filter_of_imp {α : Type} (p q : α → Bool) (l : List α)
    (h : ∀ x, p x = true → q x = true) :
    (l.filter q).find? p = l.find? p := by
  induction l with
  | nil => rfl
  | cons x xs ih =>
      cases hq : q x
      · have hp : p x = false := by
          cases hpx : p x
          · rfl
          · rw [h x hpx] at hq
            cases hq
        simp [List.filter_cons, hq, hp, ih]
      · cases hp : p x <;> simp [List.filter_cons, hq, hp, ih]

/-- Pre-filtering by a predicate every kept element satisfies anyway does not
change a filter. -/
theorem filter_filter_of_imp {α : Type} (p q : α → Bool) (l : List α)
    (h : ∀ x, p x = true → q x = true) :
    (l.filter q).filter p = l.filter p := by
  induction l with
  | nil => rfl
  | cons x xs ih =>
      cases hq : q x
      · have hp : p x = false := by
          cases hpx : p x
          · rfl
          · rw [h x hpx] at hq
            cases hq
        simp [List.filter_cons, hq, hp, ih]
      · cases hp : p x <;> simp [List.filter_cons, hq, hp, ih]

/-- C7: deleteTask removes, in one transaction, the task and exactly the time
logs and remaining-hours entries referencing it: afterwards the task id no
longer resolves, getTimeLogs and getRemainingHoursHistory for it return empty
lists, and every record of every other task is untouched. -/
theorem c7_delete_cascade (db : DB) (tid : Nat) (h0 : tid ≠ 0) :
    (deleteTask db tid).1 = true ∧
    getTask (deleteTask db tid).2 tid = none ∧
    getTimeLogs (deleteTask db tid).2 (some tid) none none = [] ∧
    getRemainingHoursHistory (deleteTask db tid).2 tid = [] ∧
    (deleteTask db tid).2.tasks = db.tasks.filter (fun t => t.id != some tid) ∧
    (deleteTask db tid).2.timeLogs = db.timeLogs.filter (fun l => l.taskId != some tid) ∧
    (deleteTask db tid).2.remainingHoursHistory =
      db.remainingHoursHistory.filter (fun e => e.taskId != some tid) ∧
    (∀ j, j ≠ tid → getTask (deleteTask db tid).2 j = getTask db j) ∧
    (∀ j s e, j ≠ tid → j ≠ 0 →
      getTimeLogs (deleteTask db tid).2 (some j) s e = getTimeLogs db (some j) s e) ∧
    (∀ j, j ≠ tid →
      getRemainingHoursHistory (deleteTask db tid).2 j = getRemainingHoursHistory db j) := by
  have htl : (deleteTask db tid).2.timeLogs =
      db.timeLogs.filter (fun l => l.taskId != some tid) := rfl
  refine ⟨rfl, ?_, ?_, ?_, rfl, rfl, rfl, ?_, ?_, ?_⟩
  · show (db.tasks.filter (fun t => t.id != some tid)).find?
        (fun t => t.id == some tid) = none
    rw [List.find?_eq_none]
    intro x hx
    have := (List.mem_filter.mp hx).2
    simpa using this
  · unfold getTimeLogs
    simp only [Option.getD_some]
    rw [if_pos h0, htl]
    have inner : (db.timeLogs.filter (fun l => l.taskId != some tid)).filter
        (fun l => l.taskId == some tid) = [] := by
      rw [List.filter_eq_nil_iff]
      intro a ha
      have := (List.mem_filter.mp ha).2
      simpa using this
    rw [inner]
    rfl
  · show ((db.remainingHoursHistory.filter (fun e => e.taskId != some tid)).filter
        (fun e => e.taskId == some tid)) = []
    rw [List.filter_eq_nil_iff]
    intro a ha
    have := (List.mem_filter.mp ha).2
    simpa using this
  · intro j hj
    show (db.tasks.filter (fun t => t.id != some tid)).find?
        (fun t => t.id == some j) = db.tasks.find? (fun t => t.id == some j)
    refine find?_filter_of_imp _ _ _ ?_
    intro x hx
    have hxj : x.id = some j := by simpa using hx
    simp [hxj, hj]
  · intro j s e hj hj0
    unfold getTimeLogs
    simp only [Option.getD_some]
    rw [if_pos hj0, if_pos hj0, htl]
    have inner : (db.timeLogs.filter (fun l => l.taskId != some tid)).filter
        (fun l => l.taskId == some j) = db.timeLogs.filter (fun l => l.taskId == some j) := by
      refine filter_filter_of_imp _ _ _ ?_
      intro x hx
      have hxj : x.taskId = some j := by simpa using hx
      simp [hxj, hj]
    rw [inner]
  · intro j hj
    show ((db.remainingHoursHistory.filter (fun e => e.taskId != some tid)).filter
          (fun e => e.taskId == some j)) =
        db.remainingHoursHistory.filter (fun e => e.taskId == some j)
    refine filter_filter_of_imp _ _ _ ?_
    intro x hx
    have hxj : x.taskId = some j := by simpa using hx
    simp [hxj, hj]

/-- Witness for C7 at a concrete database: deleting task 1 clears its two
logs and its ledger entry, empties both queries for it, and leaves task 2's
log untouched. -/
theorem c7_delete_cascade_witness :
    (deleteTask dbW7 1).1 = true ∧
    getTask (deleteTask dbW7 1).2 1 = none ∧
    getTimeLogs (deleteTask dbW7 1).2 (some 1) none none = [] ∧
    getRemainingHoursHistory (deleteTask dbW7 1).2 1 = [] ∧
    getTimeLogs (deleteTask dbW7 1).2 (some 2) none none =
      getTimeLogs dbW7 (some 2) none none := by
  have h := c7_delete_cascade dbW7 1 (by decide)
  exact ⟨h.1, h.2.1, h.2.2.1, h.2.2.2.1,
    h.2.2.2.2.2.2.2.2.1 2 none none (by decide) (by decide)⟩

/-- C8: the date filter of getTimeLogs only activates when both bounds are
present; with exactly one bound the result is the same unfiltered set as with
no bounds, a null taskId queries across all tasks, and with both bounds the
logs are filtered to dateLogged between them inclusive. -/
theorem c8_date_filter (db : DB) (taskId : Option Nat) (s e : Nat) :
    getTimeLogs db taskId (some s) none = getTimeLogs db taskId none none ∧
    getTimeLogs db taskId none (some e) = getTimeLogs db taskId none none ∧
    getTimeLogs db none none none = db.timeLogs ∧
    getTimeLogs db none (some s) none = db.timeLogs ∧
    getTimeLogs db taskId (some s) (some e) =
      (getTimeLogs db taskId none none).filter
        (fun log => match log.dateLogged with
                    | some d => decide (s ≤ d) && decide (d ≤ e)
                    | none => false) := by
  have hkeep1 : dateFilterKeep (some s) none = fun _ => true := rfl
  have hkeep2 : dateFilterKeep none (some e) = fun _ => true := rfl
  have hkeep0 : dateFilterKeep none none = fun _ => true := rfl
  refine ⟨?_, ?_, ?_, ?_, ?_⟩
  · unfold getTimeLogs
    rw [hkeep1, hkeep0]
  · unfold getTimeLogs
    rw [hkeep2, hkeep0]
  · unfold getTimeLogs
    rw [hkeep0]
    simp [List.filter_true]
  · unfold getTimeLogs
    rw [hkeep1]
    simp [List.filter_true]
  · unfold getTimeLogs
    rw [hkeep0]
    rw [List.filter_true]
    rfl

/-- When the referenced task is loggable, saveTimeLog succeeds and just puts
the (date-defaulted) log: no field of the log is validated on this path. -/
theorem saveTimeLog_loggable (db : DB) (timeLog : TimeLog) (today : Nat)
    (h : canLogTimeForTask (timeLog.taskId.bind (getTask db)) = true) :
    saveTimeLog db timeLog today =
      (true, (putTimeLog db (withDefaultDate timeLog today)).2) := by
  cases htid : timeLog.taskId with
  | none =>
      rw [htid] at h
      simp [canLogTimeForTask] at h
  | some tid =>
      cases hget : getTask db tid with
      | none =>
          rw [htid] at h
          simp [canLogTimeForTask, hget] at h
      | some task =>
          rw [htid] at h
          have ht : (task.status == some .Estimated || task.status == some .InProgress) = true := by
            simpa [canLogTimeForTask, hget] using h
          simp [saveTimeLog, htid, hget, ht]

/-- C10 fails on the code: a log with hours 0 fails validateTimeLog, yet
saveTimeLog persists it anyway (it never invokes the validator), so a
persisted TimeLog can have hours not greater than 0. -/
theorem c10_counterexample :
    (validateTimeLog badLog10).valid = false ∧
    (saveTimeLog dbW3 badLog10 7).1 = true ∧
    (saveTimeLog dbW3 badLog10 7).2.timeLogs =
      [{ badLog10 with id := some 1, dateLogged := some 7 }] := by
  decide

/-- C10 (amended): validateTimeLog reports a validation failure exactly when
a required field is missing or out of range (missing taskId, hours missing or
not greater than 0, missing dateLogged), but saveTimeLog never invokes it:
whenever the referenced task is loggable the log is persisted as-is (with
dateLogged defaulted), so persisted TimeLogs are not guaranteed hours > 0. -/
theorem c10_validation :
    (∀ timeLog : TimeLog, (validateTimeLog timeLog).valid =
      (timeLog.taskId.getD 0 != 0 &&
       (match timeLog.hours with
        | some hv => decide (0 < hv)
        | none => false) &&
       timeLog.dateLogged.isSome)) ∧
    (∀ (db : DB) (timeLog : TimeLog) (today : Nat),
      canLogTimeForTask (timeLog.taskId.bind (getTask db)) = true →
        (saveTimeLog db timeLog today).1 = true ∧
        (saveTimeLog db timeLog today).2.timeLogs =
          (putTimeLog db (withDefaultDate timeLog today)).2.timeLogs) := by
  constructor
  · intro timeLog
    unfold validateTimeLog
    cases h2 : timeLog.hours with
    | none =>
        by_cases h1 : timeLog.taskId.getD 0 = 0 <;>
          by_cases h3 : timeLog.dateLogged = none <;>
            simp [h1, h3, Option.isSome_iff_ne_none]
    | some hv =>
        by_cases h1 : timeLog.taskId.getD 0 = 0 <;>
          by_cases h3 : timeLog.dateLogged = none <;>
            by_cases h4 : hv ≤ 0 <;>
              (simp [h1, h3, h4, Option.isSome_iff_ne_none]; try omega)
  · intro db timeLog today hcan
    rw [saveTimeLog_loggable db timeLog today hcan]
    exact ⟨rfl, rfl⟩

/-- Witness for C10 (amended) at concrete inputs: a complete log validates,
the hours-0 log does not, and saveTimeLog still persists the hours-0 log
against the loggable task. -/
theorem c10_validation_witness :
    (validateTimeLog goodLog10).valid = true ∧
    (validateTimeLog badLog10).valid = false ∧
    (saveTimeLog dbW3 badLog10 7).1 = true ∧
    (saveTimeLog dbW3 badLog10 7).2.timeLogs =
      [{ badLog10 with id := some 1, dateLogged := some 7 }] := by
  have h2 := c10_validation.2 dbW3 badLog10 7 (by decide)
  refine ⟨?_, ?_, h2.1, ?_⟩
  · rw [c10_validation.1 goodLog10]
    decide
  · rw [c10_validation.1 badLog10]
    decide
  · rw [h2.2]
    decide

/-- The write section only adds a ledger entry for new tasks with one. -/
theorem writeTask_snd_none (db : DB) (t : Task) (isEdit : Bool) :
    (writeTask db t isEdit none).2 = (putTask db t).2 := by
  cases isEdit <;> rfl

/-- The write section for a new task with an initial ledger entry. -/
theorem writeTask_snd_new_entry (db : DB) (t : Task) (e : RemainingHoursEntry) :
    (writeTask db t false (some e)).2 =
      addRemainingHoursEntry (putTask db t).2 { e with taskId := some (putTask db t).1 } := rfl

/-- The first element survives appending to a non-empty list. -/
theorem head?_append_single {α : Type} (l : List α) (x : α) (h : l ≠ []) :
    (l ++ [x]).head? = l.head? := by
  cases l with
  | nil => exact absurd rfl h
  | cons a as => rfl

/-- Deleting one task leaves every other task's record unchanged. -/
theorem getTask_delete_other (db : DB) (tid j : Nat) (hj : j ≠ tid) :
    getTask (deleteTask db tid).2 j = getTask db j := by
  show (db.tasks.filter (fun t => t.id != some tid)).find?
      (fun t => t.id == some j) = db.tasks.find? (fun t => t.id == some j)
  refine find?_filter_of_imp _ _ _ ?_
  intro x hx
  have hxj : x.id = some j := by simpa using hx
  simp [hxj, hj]

/-- C4 fails on the code: an edit whose task carries no status bypasses the
whole history logic and overwrites the stored task, here persisting an empty
statusHistory over task 1's non-empty one. -/
theorem c4_counterexample :
    (getTask dbW3 1).map (fun t => t.statusHistory) =
      some (some [{ status := some .Ready, timestamp := 1, note := "Task created" }]) ∧
    (saveTask dbW3 badTask4 true 5).1 = true ∧
    (getTask (saveTask dbW3 badTask4 true 5).2 1).map (fun t => t.statusHistory) =
      some (some []) := by
  decide

/-- C4 (amended): creation seeds a one-entry history (first entry's status is
the task's status defaulted to Ready), so the invariant holds; an edit whose
incoming task carries an id and a status, over a stored task whose
(legacy-normalized) history is non-empty and monotone with timestamps at most
now, either aborts with the database untouched or preserves that history
verbatim or appends exactly one entry stamped now — keeping the history
non-empty, monotone, and its first entry unchanged; updateRemainingHours and
deleteTask never alter any surviving task's history. Edits that omit the id
or the status bypass this protection (see the counterexample). -/
theorem c4_history_invariant :
    (∀ (db : DB) (task : Task) (now : Nat), task.id = none →
      (∀ x ∈ db.tasks, x.id ≠ some db.nextTaskId) →
      (getTask (saveTask db task false now).2 db.nextTaskId).map (fun t => t.statusHistory) =
        some (some [{ status := some (task.status.getD .Ready), timestamp := now,
                      note := "Task created" }])) ∧
    (∀ (db : DB) (task cur : Task) (i : Nat) (st : Status) (now : Nat),
      task.id = some i → i ≠ 0 → task.status = some st → getTask db i = some cur →
      normalizedHistory cur now ≠ [] →
      timestampsMonotone (normalizedHistory cur now) = true →
      (∀ e ∈ normalizedHistory cur now, e.timestamp ≤ now) →
      (saveTask db task true now = (false, db)) ∨
      ((saveTask db task true now).1 = true ∧
        ∃ h', (getTask (saveTask db task true now).2 i).map (fun t => t.statusHistory) =
            some (some h') ∧
          (h' = normalizedHistory cur now ∨
            ∃ ev : StatusEvent, ev.timestamp = now ∧
              h' = normalizedHistory cur now ++ [ev]) ∧
          h' ≠ [] ∧ timestampsMonotone h' = true ∧
          h'.head? = (normalizedHistory cur now).head?)) ∧
    (∀ (db : DB) (tid : Nat) (v : Int) (note : String) (now : Nat) (j : Nat),
      (getTask (updateRemainingHours db tid v note now).2 j).map (fun t => t.statusHistory) =
        (getTask db j).map (fun t => t.statusHistory)) ∧
    (∀ (db : DB) (tid j : Nat), j ≠ tid →
      getTask (deleteTask db tid).2 j = getTask db j) := by
  refine ⟨?_, ?_, ?_, fun db tid j hj => getTask_delete_other db tid j hj⟩
  · intro db task now hid hfresh
    have hinit_id : (initializeNewTask task now).id = none := by
      rw [initializeNewTask_id]
      exact hid
    have hsave : saveTask db task false now = writeTask db (initializeNewTask task now) false
        (initialEntryFor (initializeNewTask task now) now) := rfl
    cases hentry : initialEntryFor (initializeNewTask task now) now with
    | none =>
        rw [hsave, hentry]
        have : (writeTask db (initializeNewTask task now) false none).2 =
            (putTask db (initializeNewTask task now)).2 := writeTask_snd_none _ _ _
        rw [this, getTask_put_new db _ hinit_id hfresh]
        simp [initializeNewTask_history]
    | some e =>
        rw [hsave, hentry, writeTask_snd_new_entry, getTask_addRhh,
          getTask_put_new db _ hinit_id hfresh]
        simp [initializeNewTask_history]
  · intro db task cur i st now hid hi0 hst hcur hnonnil hmono hle
    have hsave : saveTask db task true now = editChecked db task cur now := by
      unfold saveTask
      rw [hst, hid]
      dsimp only
      rw [if_neg hi0, hcur]
    by_cases hcs : cur.status = task.status
    · right
      have hedit : saveTask db task true now = writeTask db { task with
          statusHistory := some (normalizedHistory cur now),
          createdAt := some (cur.createdAt.getD now) } true none := by
        rw [hsave]
        unfold editChecked
        rw [if_pos hcs]
      refine ⟨by rw [hedit]; exact writeTask_fst _ _ _ _, normalizedHistory cur now, ?_, Or.inl rfl,
        hnonnil, hmono, rfl⟩
      rw [hedit, writeTask_snd_none]
      rw [getTask_put_self db _ i (by simpa using hid) (by simp [hcur])]
      rfl
    · by_cases hval : isValidStatusTransition cur.status task.status = true
      · right
        have hedit : saveTask db task true now = writeTask db { task with
            statusHistory := some (normalizedHistory cur now ++
              [{ status := task.status, timestamp := now,
                 note := optStatusStr cur.status ++ " => " ++ optStatusStr task.status }]),
            createdAt := some (cur.createdAt.getD now) } true none := by
          rw [hsave]
          unfold editChecked
          rw [if_neg hcs, if_pos hval]
        refine ⟨by rw [hedit]; exact writeTask_fst _ _ _ _,
          normalizedHistory cur now ++
            [{ status := task.status, timestamp := now,
               note := optStatusStr cur.status ++ " => " ++ optStatusStr task.status }],
          ?_, Or.inr ⟨_, rfl, rfl⟩, by simp, ?_, ?_⟩
        · rw [hedit, writeTask_snd_none]
          rw [getTask_put_self db _ i (by simpa using hid) (by simp [hcur])]
          rfl
        · exact timestampsMonotone_append _ _ hmono hle
        · exact head?_append_single _ _ hnonnil
      · left
        rw [hsave]
        unfold editChecked
        rw [if_neg hcs, if_neg hval]
  · intro db tid v note now j
    cases htask : getTask db tid with
    | none =>
        unfold updateRemainingHours
        rw [htask]
    | some task =>
        have hid : task.id = some tid := getTask_id db tid task htask
        by_cases heq : task.remainingHours.getD 0 = v
        · rw [updateRemainingHours_noop db tid v note now task htask heq]
        · have hupd : (updateRemainingHours db tid v note now).2 =
              addRemainingHoursEntry
                (putTask db { task with remainingHours := some v }).2
                { id := none, taskId := some tid, remainingHours := v,
                  previousRemainingHours := some (task.remainingHours.getD 0),
                  timestamp := now,
                  note := if note = "" then
                            defaultUpdateNote (task.remainingHours.getD 0) v
                          else note } := by
            unfold updateRemainingHours
            rw [htask]
            dsimp only
            rw [if_neg heq]
          rw [hupd, getTask_addRhh]
          by_cases hj : j = tid
          · subst hj
            rw [getTask_put_self db _ j (by simpa using hid) (by simp [htask]), htask]
            rfl
          · rw [getTask_put_other db _ tid j (by simpa using hid) hj]

/-- Witness for C4 (amended) at concrete inputs: creation seeds the one-entry
history, and a guarded valid edit ends with a non-empty monotone history whose
first entry is unchanged. -/
theorem c4_history_invariant_witness :
    ((getTask (saveTask emptyDB taskW5 false 6).2 1).map (fun t => t.statusHistory) =
      some (some [{ status := some .Ready, timestamp := 6, note := "Task created" }])) ∧
    ((saveTask dbW3 taskE4 true 12).1 = true ∧
      ∃ h', (getTask (saveTask dbW3 taskE4 true 12).2 1).map (fun t => t.statusHistory) =
          some (some h') ∧
        (h' = normalizedHistory taskA3 12 ∨
          ∃ ev : StatusEvent, ev.timestamp = 12 ∧
            h' = normalizedHistory taskA3 12 ++ [ev]) ∧
        h' ≠ [] ∧ timestampsMonotone h' = true ∧
        h'.head? = (normalizedHistory taskA3 12).head?) := by
  constructor
  · have ha := c4_history_invariant.1 emptyDB taskW5 6 rfl
      (by intro x hx; simp [emptyDB] at hx)
    rw [show (1 : Nat) = emptyDB.nextTaskId from rfl]
    simpa using ha
  · have hb := c4_history_invariant.2.1 dbW3 taskE4 taskA3 1 .Blocked 12
      rfl (by decide) rfl (by decide) (by decide) (by decide) (by decide)
    exact hb.resolve_left (by decide)

/-- Updating a key and looking it up yields the modified (or initialized)
value. -/
theorem lookup_updateAssoc_self {α : Type} (m : List (String × α)) (k : String)
    (d : α) (f : α → α) :
    lookupAssoc (updateAssoc m k d f) k = some (f ((lookupAssoc m k).getD d)) := by
  induction m with
  | nil => simp [updateAssoc, lookupAssoc]
  | cons p rest ih =>
      cases hp : p.1 == k
      · simp [updateAssoc, lookupAssoc, hp] at ih ⊢
        exact ih
      · simp [updateAssoc, lookupAssoc, hp]

/-- Lookup on a cons cell. -/
theorem lookupAssoc_cons {α : Type} (p : String × α) (rest : List (String × α))
    (k : String) :
    lookupAssoc (p :: rest) k = if p.1 == k then some p.2 else lookupAssoc rest k := by
  cases hp : p.1 == k <;> simp [lookupAssoc, hp]

/-- Updating one key does not change lookups of another. -/
theorem lookup_updateAssoc_other {α : Type} (m : List (String × α)) (k k' : String)
    (d : α) (f : α → α) (hk : k' ≠ k) :
    lookupAssoc (updateAssoc m k d f) k' = lookupAssoc m k' := by
  induction m with
  | nil =>
      simp [updateAssoc, lookupAssoc]
      exact fun h => absurd h.symm hk
  | cons p rest ih =>
      cases hp : p.1 == k
      · rw [show updateAssoc (p :: rest) k d f = p :: updateAssoc rest k d f from by
          simp [updateAssoc, hp]]
        rw [lookupAssoc_cons, lookupAssoc_cons, ih]
      · have hpk : p.1 = k := by simpa using hp
        rw [show updateAssoc (p :: rest) k d f = (p.1, f p.2) :: rest from by
          simp [updateAssoc, hp]]
        rw [lookupAssoc_cons, lookupAssoc_cons]
        have hp' : (p.1 == k') = false := by
          simp [hpk]
          exact fun h => absurd h.symm hk
        simp [hp']

/-- Two bucket bumps collapse into one. -/
theorem bumpCatStat_bump (c : CatStat) (s1 s2 : Int) (n1 n2 : Nat) :
    bumpCatStat (bumpCatStat c s1 n1) s2 n2 = bumpCatStat c (s1 + s2) (n1 + n2) := by
  simp [bumpCatStat, add_assoc]

/-- How one analyzer iteration changes the two hour totals. -/
theorem analyzeStep_totals (info : String → CategoryDisplayInfo)
    (lt : String → Option String) (acc : CatAcc) (log : TimeLog) :
    ((analyzeStep info lt acc log).totalCategorizedHours =
      acc.totalCategorizedHours +
        (if (categoryValueOf log).isSome then log.hours.getD 0 else 0)) ∧
    ((analyzeStep info lt acc log).uncategorizedHours =
      acc.uncategorizedHours +
        (if (categoryValueOf log).isSome then 0 else log.hours.getD 0)) := by
  cases hcv : categoryValueOf log with
  | none => simp [analyzeStep, hcv]
  | some cv =>
      cases hp : strTruthy (parseCategoryKey (some cv)).listSlug &&
          strTruthy (parseCategoryKey (some cv)).itemSlug <;>
        simp [analyzeStep, hcv, hp]

/-- One analyzer iteration never removes a per-category bucket, and only the
bucket of the log's own (parseable) key is bumped. -/
theorem analyzeStep_stats (info : String → CategoryDisplayInfo)
    (lt : String → Option String) (acc : CatAcc) (log : TimeLog) (k : String) :
    lookupAssoc (analyzeStep info lt acc log).categoryStats k =
      (if categoryValueOf log == some k ∧ parseableKey k = true then
        some (bumpCatStat ((lookupAssoc acc.categoryStats k).getD (initCatStat info k))
          (log.hours.getD 0) 1)
      else lookupAssoc acc.categoryStats k) := by
  cases hcv : categoryValueOf log with
  | none => simp [analyzeStep, hcv]
  | some cv =>
      by_cases hck : cv = k
      · subst hck
        cases hp : strTruthy (parseCategoryKey (some cv)).listSlug &&
            strTruthy (parseCategoryKey (some cv)).itemSlug
        · have hpk : parseableKey cv = false := by
            simpa [parseableKey] using hp
          simp [analyzeStep, hcv, hp, hpk]
        · have hpk : parseableKey cv = true := by
            simpa [parseableKey] using hp
          rw [if_pos ⟨by simp [hcv], hpk⟩]
          have hstep : (analyzeStep info lt acc log).categoryStats =
              updateAssoc acc.categoryStats cv (initCatStat info cv)
                (fun c => bumpCatStat c (log.hours.getD 0) 1) := by
            unfold analyzeStep
            rw [hcv]
            dsimp only
            rw [hp]
            rfl
          rw [hstep, lookup_updateAssoc_self]
      · rw [if_neg (by simp [hcv, hck])]
        cases hp : strTruthy (parseCategoryKey (some cv)).listSlug &&
            strTruthy (parseCategoryKey (some cv)).itemSlug
        · have hstep : (analyzeStep info lt acc log).categoryStats = acc.categoryStats := by
            unfold analyzeStep
            rw [hcv]
            dsimp only
            rw [hp]
            rfl
          rw [hstep]
        · have hstep : (analyzeStep info lt acc log).categoryStats =
              updateAssoc acc.categoryStats cv (initCatStat info cv)
                (fun c => bumpCatStat c (log.hours.getD 0) 1) := by
            unfold analyzeStep
            rw [hcv]
            dsimp only
            rw [hp]
            rfl
          rw [hstep]
          exact lookup_updateAssoc_other _ _ _ _ _ (fun h => hck h.symm)

/-- How the analyzer's totals accumulate along a fold. -/
theorem analyze_fold_totals (info : String → CategoryDisplayInfo)
    (lt : String → Option String) (logs : List TimeLog) :
    ∀ acc : CatAcc,
      ((logs.foldl (analyzeStep info lt) acc).totalCategorizedHours =
        acc.totalCategorizedHours +
          sumLogHours (logs.filter (fun l => (categoryValueOf l).isSome))) ∧
      ((logs.foldl (analyzeStep info lt) acc).uncategorizedHours =
        acc.uncategorizedHours +
          sumLogHours (logs.filter (fun l => !(categoryValueOf l).isSome))) := by
  induction logs with
  | nil =>
      intro acc
      simp [sumLogHours]
  | cons l ls ih =>
      intro acc
      have hstep := analyzeStep_totals info lt acc l
      have hrest := ih (analyzeStep info lt acc l)
      constructor
      · rw [List.foldl_cons, hrest.1, hstep.1]
        cases hcv : categoryValueOf l with
        | none => simp [hcv, List.filter_cons, sumLogHours, add_assoc]
        | some cv => simp [hcv, List.filter_cons, sumLogHours, add_assoc]
      · rw [List.foldl_cons, hrest.2, hstep.2]
        cases hcv : categoryValueOf l with
        | none => simp [hcv, List.filter_cons, sumLogHours, add_assoc]
        | some cv => simp [hcv, List.filter_cons, sumLogHours, add_assoc]

/-- How one per-category bucket accumulates along a fold: it exists exactly
when the key is parseable and some log carries it, and then holds the summed
hours and the count of exactly those logs. -/
theorem analyze_fold_stats (info : String → CategoryDisplayInfo)
    (lt : String → Option String) (logs : List TimeLog) (k : String) :
    ∀ acc : CatAcc,
      lookupAssoc ((logs.foldl (analyzeStep info lt) acc)).categoryStats k =
        (if parseableKey k = true ∧ keyCount k logs ≠ 0 then
          some (bumpCatStat ((lookupAssoc acc.categoryStats k).getD (initCatStat info k))
            (keySum k logs) (keyCount k logs))
        else lookupAssoc acc.categoryStats k) := by
  induction logs with
  | nil =>
      intro acc
      simp [keyCount]
  | cons l ls ih =>
      intro acc
      rw [List.foldl_cons, ih (analyzeStep info lt acc l)]
      have hstep := analyzeStep_stats info lt acc l k
      by_cases hpk : parseableKey k = true
      · by_cases hlk : (categoryValueOf l == some k) = true
        · have hstep' : lookupAssoc (analyzeStep info lt acc l).categoryStats k =
              some (bumpCatStat ((lookupAssoc acc.categoryStats k).getD (initCatStat info k))
                (l.hours.getD 0) 1) := by
            rw [hstep, if_pos ⟨hlk, hpk⟩]
          have hcount : keyCount k (l :: ls) = keyCount k ls + 1 := by
            simp [keyCount, List.filter_cons, hlk]
          have hsum : keySum k (l :: ls) = l.hours.getD 0 + keySum k ls := by
            simp [keySum, sumLogHours, List.filter_cons, hlk]
          by_cases hc0 : keyCount k ls = 0
          · have hfilter : ls.filter (fun x => categoryValueOf x == some k) = [] := by
              have := hc0
              unfold keyCount at this
              exact List.length_eq_zero.mp this
            have hsum0 : keySum k ls = 0 := by
              simp [keySum, sumLogHours, hfilter]
            rw [if_neg (by simp [hc0]), hstep', if_pos ⟨hpk, by simp [hcount]⟩]
            rw [hsum, hcount, hsum0, hc0]
            simp [bumpCatStat]
          · rw [if_pos ⟨hpk, hc0⟩, hstep', if_pos ⟨hpk, by simp [hcount]⟩]
            simp only [Option.getD_some]
            rw [bumpCatStat_bump, hsum, hcount]
            simp [Nat.add_comm]
        · have hstep' : lookupAssoc (analyzeStep info lt acc l).categoryStats k =
              lookupAssoc acc.categoryStats k := by
            rw [hstep, if_neg]
            intro hand
            exact hlk hand.1
          have hcount : keyCount k (l :: ls) = keyCount k ls := by
            simp [keyCount, List.filter_cons, hlk]
          have hsum : keySum k (l :: ls) = keySum k ls := by
            simp [keySum, List.filter_cons, hlk]
          rw [hstep', hcount, hsum]
      · have hstep' : lookupAssoc (analyzeStep info lt acc l).categoryStats k =
            lookupAssoc acc.categoryStats k := by
          rw [hstep, if_neg (fun hand => hpk hand.2)]
        rw [if_neg (fun hand => hpk hand.1), if_neg (fun hand => hpk hand.1), hstep']

/-- C9 fails on the code: a log whose category key is present but unparseable
(no dot) is counted into the categorized total, not into uncategorized hours,
and lands in no bucket. -/
theorem c9_counterexample :
    (analyzeCategoriesInTimeLogs infoC9 ltC9 [logC9]).uncategorizedHours = 0 ∧
    (analyzeCategoriesInTimeLogs infoC9 ltC9 [logC9]).totalCategorizedHours = 2 ∧
    (analyzeCategoriesInTimeLogs infoC9 ltC9 [logC9]).categoryStats = [] := by
  decide

/-- C9 (amended): over logs whose hours are present, the categorized total
sums exactly the logs with a (truthy) category value — parseable or not — the
uncategorized total sums exactly the logs without one, and the per-category
bucket of every key exists exactly when the key is parseable (split at the
first dot into two non-empty slugs) and some log carries it, in which case it
aggregates exactly those logs' summed hours and count; in particular two logs
sharing a key land in the one bucket of that key. -/
theorem c9_category_analysis (info : String → CategoryDisplayInfo)
    (lt : String → Option String) (logs : List TimeLog)
    (_hh : ∀ l ∈ logs, l.hours ≠ none) :
    (analyzeCategoriesInTimeLogs info lt logs).totalCategorizedHours =
      sumLogHours (logs.filter (fun l => (categoryValueOf l).isSome)) ∧
    (analyzeCategoriesInTimeLogs info lt logs).uncategorizedHours =
      sumLogHours (logs.filter (fun l => !(categoryValueOf l).isSome)) ∧
    (analyzeCategoriesInTimeLogs info lt logs).totalHours =
      sumLogHours (logs.filter (fun l => (categoryValueOf l).isSome)) +
        sumLogHours (logs.filter (fun l => !(categoryValueOf l).isSome)) ∧
    (∀ k : String,
      lookupAssoc (analyzeCategoriesInTimeLogs info lt logs).categoryStats k =
        (if parseableKey k = true ∧ keyCount k logs ≠ 0 then
          some (bumpCatStat (initCatStat info k) (keySum k logs) (keyCount k logs))
        else none)) := by
  have ht := analyze_fold_totals info lt logs ⟨[], [], 0, 0⟩
  refine ⟨?_, ?_, ?_, ?_⟩
  · show (logs.foldl (analyzeStep info lt) ⟨[], [], 0, 0⟩).totalCategorizedHours = _
    rw [ht.1]
    simp
  · show (logs.foldl (analyzeStep info lt) ⟨[], [], 0, 0⟩).uncategorizedHours = _
    rw [ht.2]
    simp
  · show (logs.foldl (analyzeStep info lt) ⟨[], [], 0, 0⟩).totalCategorizedHours +
        (logs.foldl (analyzeStep info lt) ⟨[], [], 0, 0⟩).uncategorizedHours = _
    rw [ht.1, ht.2]
    simp
  · intro k
    show lookupAssoc (logs.foldl (analyzeStep info lt) ⟨[], [], 0, 0⟩).categoryStats k = _
    rw [analyze_fold_stats info lt logs k ⟨[], [], 0, 0⟩]
    simp [lookupAssoc]

/-- Witness for C9 (amended) at concrete inputs: logs of 2h and 4h sharing
key "work.coding" plus an uncategorized 1h log give categorized total 6,
uncategorized 1, and one "work.coding" bucket holding 6 hours from 2 logs. -/
theorem c9_category_analysis_witness :
    (analyzeCategoriesInTimeLogs infoC9 ltC9 [logW9a, logW9b, logW9c]).totalCategorizedHours = 6 ∧
    (analyzeCategoriesInTimeLogs infoC9 ltC9 [logW9a, logW9b, logW9c]).uncategorizedHours = 1 ∧
    (lookupAssoc (analyzeCategoriesInTimeLogs infoC9 ltC9 [logW9a, logW9b, logW9c]).categoryStats
        "work.coding").map (fun c => (c.hours, c.logCount)) = some (6, 2) := by
  have h := c9_category_analysis infoC9 ltC9 [logW9a, logW9b, logW9c] (by decide)
  refine ⟨?_, ?_, ?_⟩
  · rw [h.1]
    decide
  · rw [h.2.1]
    decide
  · rw [h.2.2.2 "work.coding"]
    decide

end ThreeT
